import Mathlib

/-
  Verification of the rend3 instruction queue (src/rend3/src/instruction.rs)
  and the directional light manager (src/rend3/src/managers/directional.rs).

  Shallow embedding conventions:
  - Rust `Vec<T>` becomes `List T`; indexing that can panic becomes `Option`.
  - Functions that can panic (indexing out of bounds, `unwrap` on `None`)
    return `Option`; `none` models the panic.
  - `f32` scalars are idealised as `Rat`; `glam` vector types become records
    of `Rat` / `Nat` components with the componentwise operations used by the
    source.
  - The mutex-guarded buffers of `InstructionStreamPair` are modelled as plain
    lists; each locked critical section (`push`, `swap`) is one atomic step of
    the operational model.
  - External collaborators that are not part of this repository slice
    (`shadow_alloc::allocate_shadow_atlas`, `shadow_camera::shadow_camera`,
    the GPU device and queue) are parameters of `evaluate`; GPU objects are
    modelled by the data the source stores about them (the texture size, and a
    generation counter that increases exactly when a new texture is created).
-/

namespace Rend3

/-! ## Scalar and vector types (idealising glam / f32) -/

/-- Unsigned two component vector (`glam::UVec2`). -/
structure UVec2 where
  x : Nat
  y : Nat
deriving DecidableEq, Repr

/-- Componentwise maximum, as `glam::UVec2::max`. -/
def UVec2.max (a b : UVec2) : UVec2 := ⟨Nat.max a.x b.x, Nat.max a.y b.y⟩

/-- Two component `f32` vector (`glam::Vec2`), idealised over `Rat`. -/
structure Vec2 where
  x : Rat
  y : Rat
deriving DecidableEq, Repr

/-- `UVec2::as_vec2`. -/
def UVec2.as_vec2 (a : UVec2) : Vec2 := ⟨(a.x : Rat), (a.y : Rat)⟩

/-- Three component `f32` vector (`glam::Vec3`), idealised over `Rat`. -/
structure Vec3 where
  x : Rat
  y : Rat
  z : Rat
deriving DecidableEq, Repr

/-- `glam` vector * scalar, componentwise (used as `light.color * light.intensity`). -/
instance : HMul Vec3 Rat Vec3 := ⟨fun v s => ⟨v.x * s, v.y * s, v.z * s⟩⟩

/-- `glam` scalar / vector, componentwise (used as `1.0 / new_shadow_map_size_f32`). -/
instance : HDiv Rat Vec2 Vec2 := ⟨fun s v => ⟨s / v.x, s / v.y⟩⟩

/-- `glam` vector / vector, componentwise (used as `offset.as_vec2() / size_f32`). -/
instance : HDiv Vec2 Vec2 Vec2 := ⟨fun a b => ⟨a.x / b.x, a.y / b.y⟩⟩

/-- Opaque 4x4 matrix (`glam::Mat4`); its numeric content is irrelevant to every
claim, only its identity as a carried value matters. -/
structure Mat4 where
deriving DecidableEq, Repr

/-! ## Resource handles (rend3_types `RawResourceHandle<T>`: a slot index) -/

structure RawMeshHandle where
  idx : Nat
deriving DecidableEq, Repr

structure RawSkeletonHandle where
  idx : Nat
deriving DecidableEq, Repr

structure RawTexture2DHandle where
  idx : Nat
deriving DecidableEq, Repr

structure RawTextureCubeHandle where
  idx : Nat
deriving DecidableEq, Repr

structure RawMaterialHandle where
  idx : Nat
deriving DecidableEq, Repr

structure RawObjectHandle where
  idx : Nat
deriving DecidableEq, Repr

structure RawDirectionalLightHandle where
  idx : Nat
deriving DecidableEq, Repr

structure RawPointLightHandle where
  idx : Nat
deriving DecidableEq, Repr

structure RawGraphDataHandleUntyped where
  idx : Nat
deriving DecidableEq, Repr

/-- `RawDirectionalLightHandle::new(idx)`. -/
def RawDirectionalLightHandle.new (idx : Nat) : RawDirectionalLightHandle := ⟨idx⟩

/-! ## Opaque payload types carried by instructions

These types come from other crates / other modules of the repository; no claim
depends on their content, only on instructions carrying them, so they are
modelled as opaque tokens. -/

structure InternalSkeleton where
deriving DecidableEq, Repr

structure InternalTexture where
deriving DecidableEq, Repr

structure CommandBuffer where
deriving DecidableEq, Repr

structure TextureFromTexture where
deriving DecidableEq, Repr

structure Object where
deriving DecidableEq, Repr

structure PointLight where
deriving DecidableEq, Repr

structure PointLightChange where
deriving DecidableEq, Repr

structure ObjectChange where
deriving DecidableEq, Repr

structure Camera where
deriving DecidableEq, Repr

/-- Opaque token for the boxed `AddMaterialFillInvoke` one-shot callable. -/
structure AddMaterialFillInvoke where
deriving DecidableEq, Repr

/-- Opaque token for the boxed `ChangeMaterialChangeInvoke` one-shot callable. -/
structure ChangeMaterialChangeInvoke where
deriving DecidableEq, Repr

/-- Opaque token for the boxed `AddGraphDataAddInvoke` one-shot callable. -/
structure AddGraphDataAddInvoke where
deriving DecidableEq, Repr

/-! ## Directional light data (rend3_types) -/

/-- Modelled from the spec: `DirectionalLight` lives in the external
`rend3_types` crate, absent from this slice; per the spec it carries the
public light fields color, intensity, direction and requested shadow
resolution. -/
structure DirectionalLight where
  color : Vec3
  intensity : Rat
  direction : Vec3
  resolution : Nat
deriving DecidableEq, Repr

/-- Modelled from the spec: `DirectionalLightChange` (external `rend3_types`
crate) is a sparse delta over the `DirectionalLight` fields; only specified
fields change. -/
structure DirectionalLightChange where
  color : Option Vec3
  intensity : Option Rat
  direction : Option Vec3
  resolution : Option Nat
deriving DecidableEq, Repr

/-- Modelled from the spec: `DirectionalLight::update_from_changes` (external
`rend3_types` crate) applies a sparse delta: only the specified fields
change. -/
def DirectionalLight.update_from_changes (l : DirectionalLight) (change : DirectionalLightChange) :
    DirectionalLight :=
  { color := change.color.getD l.color
    intensity := change.intensity.getD l.intensity
    direction := change.direction.getD l.direction
    resolution := change.resolution.getD l.resolution }

/-! ## Instruction (src/rend3/src/instruction.rs) -/

/-- `std::panic::Location`: call-site identity for diagnostics. -/
structure Location where
  file : String
  line : Nat
  column : Nat
deriving DecidableEq, Repr

/-- The closed sum of scene mutations, one variant per mutation
(`InstructionKind` in instruction.rs). -/
inductive InstructionKind where
  | AddSkeleton (handle : RawSkeletonHandle) (skeleton : InternalSkeleton)
  | AddTexture2D (handle : RawTexture2DHandle) (internal_texture : InternalTexture)
      (cmd_buf : Option CommandBuffer)
  | AddTexture2DFromTexture (handle : RawTexture2DHandle) (texture : TextureFromTexture)
  | AddTextureCube (handle : RawTextureCubeHandle) (internal_texture : InternalTexture)
      (cmd_buf : Option CommandBuffer)
  | AddMaterial (handle : RawMaterialHandle) (fill_invoke : AddMaterialFillInvoke)
  | AddObject (handle : RawObjectHandle) (object : Object)
  | AddDirectionalLight (handle : RawDirectionalLightHandle) (light : DirectionalLight)
  | AddPointLight (handle : RawPointLightHandle) (light : PointLight)
  | AddGraphData (add_invoke : AddGraphDataAddInvoke)
  | ChangeMaterial (handle : RawMaterialHandle) (change_invoke : ChangeMaterialChangeInvoke)
  | ChangeDirectionalLight (handle : RawDirectionalLightHandle) (change : DirectionalLightChange)
  | ChangePointLight (handle : RawPointLightHandle) (change : PointLightChange)
  | DeleteMesh (handle : RawMeshHandle)
  | DeleteSkeleton (handle : RawSkeletonHandle)
  | DeleteTexture2D (handle : RawTexture2DHandle)
  | DeleteTextureCube (handle : RawTextureCubeHandle)
  | DeleteMaterial (handle : RawMaterialHandle)
  | DeleteObject (handle : RawObjectHandle)
  | DeleteDirectionalLight (handle : RawDirectionalLightHandle)
  | DeletePointLight (handle : RawPointLightHandle)
  | DeleteGraphData (handle : RawGraphDataHandleUntyped)
  | SetObjectTransform (handle : RawObjectHandle) (transform : Mat4)
  | SetSkeletonJointDeltas (handle : RawSkeletonHandle) (joint_matrices : List Mat4)
  | SetAspectRatio ( ratio : Rat)
  | SetCameraData (data : Camera)
  | DuplicateObject (src_handle : RawObjectHandle) (dst_handle : RawObjectHandle)
      (change : ObjectChange)
deriving DecidableEq, Repr

/-- One queued scene mutation plus its call-site identity. -/
structure Instruction where
  kind : InstructionKind
  location : Location
deriving DecidableEq, Repr

/-! ## InstructionStreamPair -/

/-- The two buffer queue: a producer sequence callers append to and a consumer
sequence the renderer drains. The mutexes are modelled away; each locked
critical section is one atomic step. -/
structure InstructionStreamPair where
  producer : List Instruction
  consumer : List Instruction
deriving DecidableEq, Repr

namespace InstructionStreamPair

/-- `InstructionStreamPair::new`. -/
def new : InstructionStreamPair := ⟨[], []⟩

/-- `InstructionStreamPair::swap`: locks both buffers and `mem::swap`s their
contents. -/
def swap (s : InstructionStreamPair) : InstructionStreamPair :=
  ⟨s.consumer, s.producer⟩

/-- `InstructionStreamPair::push`: appends `Instruction { kind, location }` to
the producer buffer. -/
def push (s : InstructionStreamPair) (kind : InstructionKind) (location : Location) :
    InstructionStreamPair :=
  { s with producer := s.producer ++ [⟨kind, location⟩] }

end InstructionStreamPair

/-! ## Operational model of queue usage

A caller-visible history is a list of atomic operations: pushes and swaps by
this component, plus the renderer draining the consumer buffer (spec section
4.1: drain is performed by the renderer, emptying the consumer). -/

/-- One atomic operation on the stream pair. `drain` models the renderer
emptying the consumer buffer. -/
inductive QueueOp where
  | push (kind : InstructionKind) (location : Location)
  | swap
  | drain
deriving DecidableEq, Repr

/-- Apply one operation to the pair. -/
def applyOp (s : InstructionStreamPair) : QueueOp → InstructionStreamPair
  | QueueOp.push k l => s.push k l
  | QueueOp.swap => s.swap
  | QueueOp.drain => { s with consumer := [] }

/-- Run a history from the freshly constructed pair. -/
def runOps (ops : List QueueOp) : InstructionStreamPair :=
  ops.foldl applyOp InstructionStreamPair.new

/-- The instructions pushed since the most recent swap of a history, in push
order (the sequence the spec says a swap must hand to the consumer). -/
def sinceLastSwap (ops : List QueueOp) : List Instruction :=
  ops.foldl
    (fun acc op =>
      match op with
      | QueueOp.push k l => acc ++ [⟨k, l⟩]
      | QueueOp.swap => []
      | QueueOp.drain => acc)
    []

/-- Scans a history, tracking `(allOk, drainedSince)`: whether every swap so
far found the consumer drained, and whether a drain has happened since the
most recent swap (true initially: the fresh consumer is empty). -/
def goodState (ops : List QueueOp) : Bool × Bool :=
  ops.foldl
    (fun st op =>
      match op with
      | QueueOp.push _ _ => st
      | QueueOp.swap => (st.1 && st.2, false)
      | QueueOp.drain => (st.1, true))
    (true, true)

/-- A history is well drained when every swap in it happens with the consumer
already drained (the renderer drained it since the previous swap). -/
def wellDrained (ops : List QueueOp) : Bool := (goodState ops).1

/-- Whether the consumer is drained after the history (a drain since the last
swap, or no swap yet). -/
def drainedSince (ops : List QueueOp) : Bool := (goodState ops).2

/-- N caller threads pushing concurrently: because each `push` holds the
producer mutex, an execution is an interleaved sequence of atomic pushes,
each tagged with the identity of the pushing thread. `runTrace` runs such an
execution from the fresh pair. -/
def runTrace {n : Nat} (tr : List (Fin n × Instruction)) : InstructionStreamPair :=
  tr.foldl (fun s p => s.push p.2.kind p.2.location) InstructionStreamPair.new

/-! ## Deletion capability (trait `DeletableRawResourceHandle`) -/

/-- `DeletableRawResourceHandle`: turns a raw resource handle into its delete
instruction. One implementation per handle type; a closed capability set. -/
class DeletableRawResourceHandle (α : Type) where
  into_delete_instruction_kind : α → InstructionKind

export DeletableRawResourceHandle (into_delete_instruction_kind)

instance : DeletableRawResourceHandle RawMeshHandle where
  into_delete_instruction_kind h := InstructionKind.DeleteMesh h

instance : DeletableRawResourceHandle RawSkeletonHandle where
  into_delete_instruction_kind h := InstructionKind.DeleteSkeleton h

instance : DeletableRawResourceHandle RawTexture2DHandle where
  into_delete_instruction_kind h := InstructionKind.DeleteTexture2D h

instance : DeletableRawResourceHandle RawTextureCubeHandle where
  into_delete_instruction_kind h := InstructionKind.DeleteTextureCube h

instance : DeletableRawResourceHandle RawMaterialHandle where
  into_delete_instruction_kind h := InstructionKind.DeleteMaterial h

instance : DeletableRawResourceHandle RawObjectHandle where
  into_delete_instruction_kind h := InstructionKind.DeleteObject h

instance : DeletableRawResourceHandle RawDirectionalLightHandle where
  into_delete_instruction_kind h := InstructionKind.DeleteDirectionalLight h

instance : DeletableRawResourceHandle RawPointLightHandle where
  into_delete_instruction_kind h := InstructionKind.DeletePointLight h

instance : DeletableRawResourceHandle RawGraphDataHandleUntyped where
  into_delete_instruction_kind h := InstructionKind.DeleteGraphData h

/-! ## Directional light manager (src/rend3/src/managers/directional.rs) -/

/-- `MINIMUM_SHADOW_MAP_SIZE = UVec2::splat(32)`. -/
def MINIMUM_SHADOW_MAP_SIZE : UVec2 := ⟨32, 32⟩

/-- Internal representation of a directional light. -/
structure InternalDirectionalLight where
  inner : DirectionalLight
deriving DecidableEq, Repr

/-- One allocated rectangle in the shadow atlas. Modelled from the spec:
`shadow_alloc::ShadowMap` is declared in the absent `shadow_alloc` module;
per the spec it is `\x7b handle, offset: integer 2-D, size: integer \x7d`,
matching the source's uses `map.handle.idx`, `map.offset.as_vec2()`,
`map.size as f32`. -/
structure ShadowMap where
  handle : RawDirectionalLightHandle
  offset : UVec2
  size : Nat
deriving DecidableEq, Repr

/-- A packing produced by the shadow atlas allocator. Modelled from the spec:
the allocator (absent `shadow_alloc` module) returns an atlas side length and
a list of placements; the source reads the fields `texture_dimensions` and
`maps`. -/
structure ShadowAtlas where
  texture_dimensions : UVec2
  maps : List ShadowMap
deriving DecidableEq, Repr

/-- A camera view/projection pairing (`managers::CameraState`); only its
`view_proj` output matters to the light buffer. -/
structure CameraState where
  view_proj : Mat4
deriving DecidableEq, Repr

/-- Pairs an atlas placement with its rendering camera. -/
structure ShadowDesc where
  map : ShadowMap
  camera : CameraState
deriving DecidableEq, Repr

/-- One GPU-visible light record. -/
structure ShaderDirectionalLight where
  view_proj : Mat4
  color : Vec3
  direction : Vec3
  inv_resolution : Vec2
  atlas_offset : Vec2
  atlas_size : Vec2
deriving DecidableEq, Repr

/-- The GPU-visible light buffer: runtime element count plus the records
(`count: ArrayLength` is written by `encase` as the array length). -/
structure ShaderDirectionalLightBuffer where
  count : Nat
  array : List ShaderDirectionalLight
deriving DecidableEq, Repr

/-- Manages directional lights and their associated shadow maps. The GPU
texture view is modelled by a generation counter `texture_view` that
increases exactly when `create_shadow_texture` is called. -/
structure DirectionalLightManager where
  data : List (Option InternalDirectionalLight)
  texture_size : UVec2
  texture_view : Nat
deriving DecidableEq, Repr

namespace DirectionalLightManager

/-- `DirectionalLightManager::new`: empty storage, texture at the minimum
size. -/
def new : DirectionalLightManager :=
  { data := [], texture_size := MINIMUM_SHADOW_MAP_SIZE, texture_view := 0 }

/-- `DirectionalLightManager::add`: grow storage (filling with `None`) when
`handle.idx` is past the end, then overwrite the slot. -/
def add (m : DirectionalLightManager) (handle : RawDirectionalLightHandle)
    (light : DirectionalLight) : DirectionalLightManager :=
  let data :=
    if m.data.length ≤ handle.idx then
      m.data ++ List.replicate (handle.idx + 1 - m.data.length) none
    else m.data
  { m with data := data.set handle.idx (some ⟨light⟩) }

/-- `self.data[idx].as_ref()` with the source's panics: `none` when `idx` is
out of bounds (index panic) or the slot is empty (`unwrap` panic). -/
def lookupLight (data : List (Option InternalDirectionalLight)) (idx : Nat) :
    Option InternalDirectionalLight :=
  match data[idx]? with
  | some (some l) => some l
  | _ => none

/-- `DirectionalLightManager::update`: `self.data[handle.idx].as_mut().unwrap()
.inner.update_from_changes(change)`; `none` models the panic on a dead
slot. -/
def update (m : DirectionalLightManager) (handle : RawDirectionalLightHandle)
    (change : DirectionalLightChange) : Option DirectionalLightManager :=
  match lookupLight m.data handle.idx with
  | some l =>
      some { m with
        data := m.data.set handle.idx (some ⟨l.inner.update_from_changes change⟩) }
  | none => none

/-- `DirectionalLightManager::remove`: `self.data[handle.idx].take().unwrap()`;
`none` models the panic on a dead slot. -/
def remove (m : DirectionalLightManager) (handle : RawDirectionalLightHandle) :
    Option DirectionalLightManager :=
  match lookupLight m.data handle.idx with
  | some _ => some { m with data := m.data.set handle.idx none }
  | none => none

/-- The `(handle, resolution)` list of live lights collected at the top of
`evaluate` (`self.data.iter().enumerate().filter_map(...)`). -/
def collectShadowMaps (data : List (Option InternalDirectionalLight)) :
    List (RawDirectionalLightHandle × Nat) :=
  data.enum.filterMap
    (fun p => p.2.map (fun l => (RawDirectionalLightHandle.new p.1, l.inner.resolution)))

/-- The outcome of one `evaluate` call: the manager's state after the call,
its return value `(atlas size, shadow descriptors)`, and the buffer written
to the GPU (`none` when the early return skipped the write). -/
structure EvalResult where
  mgr : DirectionalLightManager
  size : UVec2
  descs : List ShadowDesc
  buffer : Option ShaderDirectionalLightBuffer
deriving DecidableEq, Repr

/-- `DirectionalLightManager::evaluate`. The external collaborators are
parameters: `alloc` stands for `shadow_alloc::allocate_shadow_atlas`,
`maxDim` for `renderer.limits.max_texture_dimension_2d`, `fit` for
`shadow_camera::shadow_camera`. A `none` result models a panic (an atlas
placement whose handle is not a live light). -/
def evaluate (m : DirectionalLightManager)
    (alloc : List (RawDirectionalLightHandle × Nat) → Nat → Option ShadowAtlas)
    (maxDim : Nat) (fit : InternalDirectionalLight → CameraState → CameraState)
    (user_camera : CameraState) : Option EvalResult :=
  let shadow_maps := collectShadowMaps m.data
  let shadow_atlas := alloc shadow_maps maxDim
  let new_shadow_map_size :=
    match shadow_atlas with
    | some a => UVec2.max a.texture_dimensions MINIMUM_SHADOW_MAP_SIZE
    | none => MINIMUM_SHADOW_MAP_SIZE
  let new_shadow_map_size_f32 := new_shadow_map_size.as_vec2
  let m :=
    if new_shadow_map_size ≠ m.texture_size then
      { m with texture_size := new_shadow_map_size, texture_view := m.texture_view + 1 }
    else m
  match shadow_atlas with
  | none => some ⟨m, new_shadow_map_size, [], none⟩
  | some a => do
      let shadow_data ← a.maps.mapM (fun map => do
        let l ← lookupLight m.data map.handle.idx
        pure (ShadowDesc.mk map (fit l user_camera)))
      let array ← shadow_data.mapM (fun desc => do
        let il ← lookupLight m.data desc.map.handle.idx
        let light := il.inner
        pure (ShaderDirectionalLight.mk desc.camera.view_proj
          (light.color * light.intensity) light.direction
          ((1 : Rat) / new_shadow_map_size_f32)
          (desc.map.offset.as_vec2 / new_shadow_map_size_f32)
          ((desc.map.size : Rat) / new_shadow_map_size_f32)))
      some ⟨m, new_shadow_map_size, shadow_data, some ⟨array.length, array⟩⟩

end DirectionalLightManager

/-! ## Queue lemmas -/

theorem runOps_snoc (ops : List QueueOp) (op : QueueOp) :
    runOps (ops ++ [op]) = applyOp (runOps ops) op := by
  simp [runOps, List.foldl_append]

theorem sinceLastSwap_snoc (ops : List QueueOp) (op : QueueOp) :
    sinceLastSwap (ops ++ [op]) =
      match op with
      | QueueOp.push k l => sinceLastSwap ops ++ [⟨k, l⟩]
      | QueueOp.swap => []
      | QueueOp.drain => sinceLastSwap ops := by
  cases op <;> simp [sinceLastSwap, List.foldl_append]

theorem goodState_snoc (ops : List QueueOp) (op : QueueOp) :
    goodState (ops ++ [op]) =
      match op with
      | QueueOp.push _ _ => goodState ops
      | QueueOp.swap => ((goodState ops).1 && (goodState ops).2, false)
      | QueueOp.drain => ((goodState ops).1, true) := by
  cases op <;> simp [goodState, List.foldl_append]

/-- In a well-drained history the producer buffer holds exactly the pushes
since the last swap, and the consumer is empty whenever it has been drained
since the last swap. -/
theorem runOps_wellDrained_invariant (ops : List QueueOp) :
    wellDrained ops = true →
    (runOps ops).producer = sinceLastSwap ops ∧
      (drainedSince ops = true → (runOps ops).consumer = []) := by
  induction ops using List.reverseRecOn with
  | nil => exact fun _ => ⟨rfl, fun _ => rfl⟩
  | append_singleton ops op ih =>
      intro h
      cases op with
      | push k l =>
          have h0 : wellDrained ops = true := by
            simpa [wellDrained, goodState_snoc] using h
          obtain ⟨hp, hc⟩ := ih h0
          refine ⟨?_, ?_⟩
          · simp [runOps_snoc, sinceLastSwap_snoc, applyOp, InstructionStreamPair.push, hp]
          · intro hd
            have hd0 : drainedSince ops = true := by
              simpa [drainedSince, goodState_snoc] using hd
            simp [runOps_snoc, applyOp, InstructionStreamPair.push, hc hd0]
      | swap =>
          have h2 : (goodState ops).1 = true ∧ (goodState ops).2 = true := by
            have := h
            simp only [wellDrained, goodState_snoc] at this
            exact And.intro (Bool.and_elim_left this) (Bool.and_elim_right this)
          obtain ⟨hp, hc⟩ := ih h2.1
          refine ⟨?_, ?_⟩
          · simp [runOps_snoc, sinceLastSwap_snoc, applyOp, InstructionStreamPair.swap,
              hc h2.2]
          · intro hd
            simp [drainedSince, goodState_snoc] at hd
      | drain =>
          have h0 : wellDrained ops = true := by
            simpa [wellDrained, goodState_snoc] using h
          obtain ⟨hp, hc⟩ := ih h0
          refine ⟨?_, fun _ => ?_⟩
          · simp [runOps_snoc, sinceLastSwap_snoc, applyOp, hp]
          · simp [runOps_snoc, applyOp]

/-! ## C1 -/

/-- C1 (counterexample): the claim fails as stated. In the push/swap history
push i0, swap, push i1, swap — with no drain of the consumer — the second
swap leaves the producer holding the stale instruction i0, not empty, even
though the consumer does hold exactly the pushes since the previous swap. -/
theorem swap_producer_not_always_empty_cex :
    ¬ (((runOps ([QueueOp.push (InstructionKind.DeleteMesh ⟨0⟩) ⟨"lib.rs", 10, 4⟩,
            QueueOp.swap,
            QueueOp.push (InstructionKind.DeleteMesh ⟨1⟩) ⟨"lib.rs", 11, 4⟩] ++
            [QueueOp.swap])).consumer =
          sinceLastSwap [QueueOp.push (InstructionKind.DeleteMesh ⟨0⟩) ⟨"lib.rs", 10, 4⟩,
            QueueOp.swap,
            QueueOp.push (InstructionKind.DeleteMesh ⟨1⟩) ⟨"lib.rs", 11, 4⟩]) ∧
        (runOps ([QueueOp.push (InstructionKind.DeleteMesh ⟨0⟩) ⟨"lib.rs", 10, 4⟩,
            QueueOp.swap,
            QueueOp.push (InstructionKind.DeleteMesh ⟨1⟩) ⟨"lib.rs", 11, 4⟩] ++
            [QueueOp.swap])).producer = []) := by
  decide

/-- C1 (amended): for every history of pushes, swaps and renderer drains in
which the consumer is drained before each swap, immediately after a swap the
consumer holds exactly the instructions pushed since the previous swap, in
original push order, and the producer is empty and open for new pushes. -/
theorem swap_after_drain_hands_pushes (ops : List QueueOp)
    (h : wellDrained (ops ++ [QueueOp.swap]) = true) :
    (runOps (ops ++ [QueueOp.swap])).consumer = sinceLastSwap ops ∧
      (runOps (ops ++ [QueueOp.swap])).producer = [] := by
  have h2 : (goodState ops).1 = true ∧ (goodState ops).2 = true := by
    simp only [wellDrained, goodState_snoc] at h
    exact And.intro (Bool.and_elim_left h) (Bool.and_elim_right h)
  obtain ⟨hp, hc⟩ := runOps_wellDrained_invariant ops h2.1
  constructor
  · simp [runOps_snoc, applyOp, InstructionStreamPair.swap, hp]
  · simp [runOps_snoc, applyOp, InstructionStreamPair.swap, hc h2.2]

/-- C1 (witness): a concrete well-drained history — push, swap, drain, push,
swap — on which the amended theorem evaluates: the final consumer holds the
one instruction pushed since the first swap and the producer is empty. -/
theorem swap_after_drain_hands_pushes_witness :
    (runOps ([QueueOp.push (InstructionKind.DeleteMesh ⟨0⟩) ⟨"lib.rs", 10, 4⟩,
        QueueOp.swap, QueueOp.drain,
        QueueOp.push (InstructionKind.DeleteMesh ⟨1⟩) ⟨"lib.rs", 11, 4⟩] ++
        [QueueOp.swap])).consumer =
      sinceLastSwap [QueueOp.push (InstructionKind.DeleteMesh ⟨0⟩) ⟨"lib.rs", 10, 4⟩,
        QueueOp.swap, QueueOp.drain,
        QueueOp.push (InstructionKind.DeleteMesh ⟨1⟩) ⟨"lib.rs", 11, 4⟩] ∧
    (runOps ([QueueOp.push (InstructionKind.DeleteMesh ⟨0⟩) ⟨"lib.rs", 10, 4⟩,
        QueueOp.swap, QueueOp.drain,
        QueueOp.push (InstructionKind.DeleteMesh ⟨1⟩) ⟨"lib.rs", 11, 4⟩] ++
        [QueueOp.swap])).producer = [] :=
  swap_after_drain_hands_pushes _ (by decide)

/-! ## C10 -/

/-- C10: swap is an exact content exchange: after `swap()` the producer holds
exactly what the consumer held before and the consumer holds exactly what the
producer held before, each in original order; in particular the producer is
empty after the swap iff the consumer was empty (fully drained) beforehand. -/
theorem swap_exchanges_buffers (s : InstructionStreamPair) :
    (InstructionStreamPair.swap s).producer = s.consumer ∧
      (InstructionStreamPair.swap s).consumer = s.producer ∧
      ((InstructionStreamPair.swap s).producer = [] ↔ s.consumer = []) :=
  ⟨rfl, rfl, Iff.rfl⟩

/-! ## C8 -/

/-- C8: for every handle type of the closed deletable set,
`into_delete_instruction_kind` is a total pure function returning the matching
Delete variant carrying exactly the given handle. -/
theorem into_delete_instruction_kind_total :
    (∀ h : RawMeshHandle, into_delete_instruction_kind h = InstructionKind.DeleteMesh h) ∧
    (∀ h : RawSkeletonHandle,
      into_delete_instruction_kind h = InstructionKind.DeleteSkeleton h) ∧
    (∀ h : RawTexture2DHandle,
      into_delete_instruction_kind h = InstructionKind.DeleteTexture2D h) ∧
    (∀ h : RawTextureCubeHandle,
      into_delete_instruction_kind h = InstructionKind.DeleteTextureCube h) ∧
    (∀ h : RawMaterialHandle,
      into_delete_instruction_kind h = InstructionKind.DeleteMaterial h) ∧
    (∀ h : RawObjectHandle, into_delete_instruction_kind h = InstructionKind.DeleteObject h) ∧
    (∀ h : RawDirectionalLightHandle,
      into_delete_instruction_kind h = InstructionKind.DeleteDirectionalLight h) ∧
    (∀ h : RawPointLightHandle,
      into_delete_instruction_kind h = InstructionKind.DeletePointLight h) ∧
    (∀ h : RawGraphDataHandleUntyped,
      into_delete_instruction_kind h = InstructionKind.DeleteGraphData h) :=
  ⟨fun _ => rfl, fun _ => rfl, fun _ => rfl, fun _ => rfl, fun _ => rfl, fun _ => rfl,
    fun _ => rfl, fun _ => rfl, fun _ => rfl⟩

/-! ## C9 -/

theorem pushFold_producer {n : Nat} (tr : List (Fin n × Instruction))
    (s : InstructionStreamPair) :
    (tr.foldl (fun s p => s.push p.2.kind p.2.location) s).producer =
      s.producer ++ tr.map Prod.snd := by
  induction tr generalizing s with
  | nil => simp
  | cons p t ih =>
      rw [List.foldl_cons, ih]
      simp [InstructionStreamPair.push]

theorem pushFold_consumer {n : Nat} (tr : List (Fin n × Instruction))
    (s : InstructionStreamPair) :
    (tr.foldl (fun s p => s.push p.2.kind p.2.location) s).consumer = s.consumer := by
  induction tr generalizing s with
  | nil => rfl
  | cons p t ih =>
      rw [List.foldl_cons, ih]
      rfl

/-- Summing each thread's filtered sub-multiset of an interleaved trace gives
the multiset of all pushed instructions. -/
theorem sum_filter_multiset {n : Nat} (tr : List (Fin n × Instruction)) :
    (∑ i : Fin n,
        (((tr.filter fun p => decide (p.1 = i)).map Prod.snd : List Instruction) :
          Multiset Instruction)) =
      ((tr.map Prod.snd : List Instruction) : Multiset Instruction) := by
  induction tr with
  | nil => simp
  | cons p t ih =>
      have hstep : ∀ i : Fin n,
          ((((p :: t).filter fun q => decide (q.1 = i)).map Prod.snd : List Instruction) :
            Multiset Instruction) =
          (if p.1 = i then ({p.2} : Multiset Instruction) else 0) +
            (((t.filter fun q => decide (q.1 = i)).map Prod.snd : List Instruction) :
              Multiset Instruction) := by
        intro i
        by_cases hpi : p.1 = i
        · simp [List.filter_cons, hpi]
        · simp [List.filter_cons, hpi]
      rw [Finset.sum_congr rfl fun i _ => hstep i, Finset.sum_add_distrib,
        Finset.sum_ite_eq Finset.univ p.1 (fun _ => ({p.2} : Multiset Instruction)), ih]
      simp

/-- The filtered per-thread lengths of an interleaved trace sum to the trace
length. -/
theorem sum_filter_length {n : Nat} (tr : List (Fin n × Instruction)) :
    (∑ i : Fin n, ((tr.filter fun p => decide (p.1 = i)).length)) = tr.length := by
  induction tr with
  | nil => simp
  | cons p t ih =>
      have hstep : ∀ i : Fin n,
          ((p :: t).filter fun q => decide (q.1 = i)).length =
            (if p.1 = i then 1 else 0) + ((t.filter fun q => decide (q.1 = i)).length) := by
        intro i
        by_cases hpi : p.1 = i
        · simp [List.filter_cons, hpi]
          omega
        · simp [List.filter_cons, hpi]
      rw [Finset.sum_congr rfl fun i _ => hstep i, Finset.sum_add_distrib,
        Finset.sum_ite_eq Finset.univ p.1 (fun _ => 1), ih]
      simp
      omega

/-- C9: when N threads each push M instructions concurrently (each push one
atomic mutex-protected step, so an execution is an interleaving of the
per-thread push sequences) and one swap follows, the consumer holds exactly
N*M instructions, with no duplicates or losses (multiset equality), each
thread's own pushes in their original relative order, and the producer is
empty. -/
theorem concurrent_pushes_then_swap {n M : Nat} (threads : Fin n → List Instruction)
    (tr : List (Fin n × Instruction))
    (hintl : ∀ i : Fin n, (tr.filter fun p => decide (p.1 = i)).map Prod.snd = threads i)
    (hM : ∀ i : Fin n, (threads i).length = M) :
    (InstructionStreamPair.swap (runTrace tr)).consumer.length = n * M ∧
      ((InstructionStreamPair.swap (runTrace tr)).consumer : Multiset Instruction) =
        ∑ i : Fin n, ((threads i : List Instruction) : Multiset Instruction) ∧
      (∀ i : Fin n,
        (threads i).Sublist (InstructionStreamPair.swap (runTrace tr)).consumer) ∧
      (InstructionStreamPair.swap (runTrace tr)).producer = [] := by
  have hcons : (InstructionStreamPair.swap (runTrace tr)).consumer = tr.map Prod.snd := by
    show (runTrace tr).producer = tr.map Prod.snd
    simpa [InstructionStreamPair.new] using
      pushFold_producer tr InstructionStreamPair.new
  refine ⟨?_, ?_, ?_, ?_⟩
  · rw [hcons, List.length_map, ← sum_filter_length tr]
    have : ∀ i : Fin n, (tr.filter fun p => decide (p.1 = i)).length = M := by
      intro i
      rw [← hM i, ← hintl i, List.length_map]
    rw [Finset.sum_congr rfl fun i _ => this i]
    simp [Finset.sum_const, Finset.card_univ, Nat.mul_comm]
  · rw [hcons, ← sum_filter_multiset tr]
    exact Finset.sum_congr rfl fun i _ => by rw [hintl i]
  · intro i
    rw [hcons, ← hintl i]
    exact List.Sublist.map Prod.snd (List.filter_sublist tr)
  · show (runTrace tr).consumer = []
    simpa [InstructionStreamPair.new] using
      pushFold_consumer tr InstructionStreamPair.new

/-- C9 (witness): two threads each pushing one concrete instruction, in one
concrete interleaving, followed by a swap: the consumer ends with 2*1
instructions. -/
theorem concurrent_pushes_then_swap_witness :
    (InstructionStreamPair.swap
        (runTrace [((0 : Fin 2), ⟨InstructionKind.DeleteMesh ⟨0⟩, ⟨"lib.rs", 10, 4⟩⟩),
          ((1 : Fin 2), ⟨InstructionKind.DeleteMesh ⟨1⟩, ⟨"lib.rs", 11, 4⟩⟩)])).consumer.length =
      2 * 1 :=
  (concurrent_pushes_then_swap
    (fun i => [⟨InstructionKind.DeleteMesh ⟨i.val⟩, ⟨"lib.rs", 10 + i.val, 4⟩⟩])
    [((0 : Fin 2), ⟨InstructionKind.DeleteMesh ⟨0⟩, ⟨"lib.rs", 10, 4⟩⟩),
      ((1 : Fin 2), ⟨InstructionKind.DeleteMesh ⟨1⟩, ⟨"lib.rs", 11, 4⟩⟩)]
    (by decide) (by decide)).1

/-! ## C2 -/

open DirectionalLightManager in
/-- C2: `update` and `remove` panic exactly when the slot is not live (empty
or out of range); on a live slot, `update` applies the sparse delta to the
stored light and `remove` clears the slot, after which any further `update`
or `remove` on the same handle panics again. -/
theorem update_remove_live_contract (m : DirectionalLightManager)
    (handle : RawDirectionalLightHandle) (change : DirectionalLightChange) :
    ((m.update handle change).isSome ↔ (lookupLight m.data handle.idx).isSome) ∧
    ((m.remove handle).isSome ↔ (lookupLight m.data handle.idx).isSome) ∧
    (∀ l, lookupLight m.data handle.idx = some l →
      m.update handle change = some { m with
          data := m.data.set handle.idx (some ⟨l.inner.update_from_changes change⟩) } ∧
      ∃ m', m.remove handle = some m' ∧
        lookupLight m'.data handle.idx = none ∧
        m'.update handle change = none ∧ m'.remove handle = none) := by
  refine ⟨?_, ?_, ?_⟩
  · cases hl : lookupLight m.data handle.idx <;>
      simp [DirectionalLightManager.update, hl]
  · cases hl : lookupLight m.data handle.idx <;>
      simp [DirectionalLightManager.remove, hl]
  · intro l hl
    have hidx : handle.idx < m.data.length := by
      by_cases h : handle.idx < m.data.length
      · exact h
      · exfalso
        have hnone : m.data[handle.idx]? = none :=
          List.getElem?_eq_none (Nat.le_of_not_lt h)
        simp [lookupLight, hnone] at hl
    have hclear : lookupLight (m.data.set handle.idx none) handle.idx = none := by
      have : (m.data.set handle.idx none)[handle.idx]? = some none :=
        List.getElem?_set_self hidx
      simp [lookupLight, this]
    refine ⟨by simp [DirectionalLightManager.update, hl], ?_⟩
    refine ⟨{ m with data := m.data.set handle.idx none },
      by simp [DirectionalLightManager.remove, hl], hclear, ?_, ?_⟩
    · simp [DirectionalLightManager.update, hclear]
    · simp [DirectionalLightManager.remove, hclear]

/-! ## C3 -/

open DirectionalLightManager in
/-- C3: after `add(h, L)` slot h reads exactly L; when `h.idx` is at or past
the storage length the storage grows to `h.idx + 1` with all newly created
slots empty, and every previously existing slot other than h is unchanged. -/
theorem add_sets_slot_and_grows (m : DirectionalLightManager)
    (handle : RawDirectionalLightHandle) (light : DirectionalLight) :
    ((m.add handle light).data)[handle.idx]? = some (some ⟨light⟩) ∧
    (m.data.length ≤ handle.idx →
      (m.add handle light).data.length = handle.idx + 1 ∧
      ∀ j, m.data.length ≤ j → j < handle.idx →
        ((m.add handle light).data)[j]? = some none) ∧
    (handle.idx < m.data.length → (m.add handle light).data.length = m.data.length) ∧
    (∀ j, j < m.data.length → j ≠ handle.idx →
      ((m.add handle light).data)[j]? = m.data[j]?) := by
  by_cases hle : m.data.length ≤ handle.idx
  · have hlen : (m.data ++ List.replicate (handle.idx + 1 - m.data.length) none).length =
        handle.idx + 1 := by
      simp
      omega
    refine ⟨?_, fun _ => ⟨?_, ?_⟩, ?_, ?_⟩
    · simp only [DirectionalLightManager.add, if_pos hle]
      exact List.getElem?_set_self (by omega)
    · simp [DirectionalLightManager.add, if_pos hle]
      omega
    · intro j hj hjlt
      simp only [DirectionalLightManager.add, if_pos hle]
      rw [List.getElem?_set_ne (by omega)]
      rw [List.getElem?_append_right hj]
      exact List.getElem?_replicate_of_lt (by omega)
    · intro h
      omega
    · intro j hj hne
      simp only [DirectionalLightManager.add, if_pos hle]
      rw [List.getElem?_set_ne (Ne.symm hne)]
      exact List.getElem?_append_left hj
  · have hlt : handle.idx < m.data.length := Nat.lt_of_not_le hle
    refine ⟨?_, fun h => absurd h hle, fun _ => ?_, ?_⟩
    · simp only [DirectionalLightManager.add, if_neg hle]
      exact List.getElem?_set_self hlt
    · simp [DirectionalLightManager.add, if_neg hle]
    · intro j hj hne
      simp only [DirectionalLightManager.add, if_neg hle]
      exact List.getElem?_set_ne (Ne.symm hne)

/-! ## Evaluate lemmas -/

/-- The conditional texture recreation step never touches light storage. -/
theorem textureStep_data (m : DirectionalLightManager) (sz : UVec2) :
    (if sz ≠ m.texture_size then
        { m with texture_size := sz, texture_view := m.texture_view + 1 }
      else m).data = m.data := by
  split <;> rfl

/-- After the conditional texture recreation step the held texture size is the
working size (either it was recreated at that size, or it already had it). -/
theorem textureStep_texture_size (m : DirectionalLightManager) (sz : UVec2) :
    (if sz ≠ m.texture_size then
        { m with texture_size := sz, texture_view := m.texture_view + 1 }
      else m).texture_size = sz := by
  by_cases hc : sz ≠ m.texture_size
  · simp [if_pos hc]
  · simp [if_neg hc]
    exact (Decidable.not_not.mp hc).symm

/-- The texture is recreated (the view generation changes) iff the working
size differs from the currently held texture's size. -/
theorem textureStep_view (m : DirectionalLightManager) (sz : UVec2) :
    ((if sz ≠ m.texture_size then
        { m with texture_size := sz, texture_view := m.texture_view + 1 }
      else m).texture_view ≠ m.texture_view) ↔ sz ≠ m.texture_size := by
  by_cases hc : sz ≠ m.texture_size
  · simp [if_pos hc, hc]
  · simp [if_neg hc, hc]

open DirectionalLightManager in
/-- What an `evaluate` call that found a packing and returned must have
computed: the per-placement descriptors, the buffer records, and the final
result shape. -/
theorem evaluate_some_atlas {m : DirectionalLightManager}
    {alloc : List (RawDirectionalLightHandle × Nat) → Nat → Option ShadowAtlas}
    {maxDim : Nat} {fit : InternalDirectionalLight → CameraState → CameraState}
    {cam : CameraState} {a : ShadowAtlas} {r : EvalResult}
    (ha : alloc (collectShadowMaps m.data) maxDim = some a)
    (h : m.evaluate alloc maxDim fit cam = some r) :
    ∃ sd arr,
      a.maps.mapM (fun map => do
          let l ← lookupLight m.data map.handle.idx
          pure (ShadowDesc.mk map (fit l cam))) = some sd ∧
      sd.mapM (fun desc => do
          let il ← lookupLight m.data desc.map.handle.idx
          pure (ShaderDirectionalLight.mk desc.camera.view_proj
            (il.inner.color * il.inner.intensity) il.inner.direction
            ((1 : Rat) / (UVec2.max a.texture_dimensions MINIMUM_SHADOW_MAP_SIZE).as_vec2)
            (desc.map.offset.as_vec2 /
              (UVec2.max a.texture_dimensions MINIMUM_SHADOW_MAP_SIZE).as_vec2)
            ((desc.map.size : Rat) /
              (UVec2.max a.texture_dimensions MINIMUM_SHADOW_MAP_SIZE).as_vec2))) = some arr ∧
      r = ⟨(if UVec2.max a.texture_dimensions MINIMUM_SHADOW_MAP_SIZE ≠ m.texture_size then
            { m with
              texture_size := UVec2.max a.texture_dimensions MINIMUM_SHADOW_MAP_SIZE,
              texture_view := m.texture_view + 1 }
          else m),
        UVec2.max a.texture_dimensions MINIMUM_SHADOW_MAP_SIZE, sd,
        some ⟨arr.length, arr⟩⟩ := by
  simp only [DirectionalLightManager.evaluate, ha, textureStep_data] at h
  simp only [bind, Option.bind_eq_some] at h
  obtain ⟨sd, hsd, h⟩ := h
  obtain ⟨arr, harr, h⟩ := h
  exact ⟨sd, arr, hsd, harr, (Option.some.inj h).symm⟩

/-! ## C5 -/

open DirectionalLightManager in
/-- C5: when the allocator returns no packing — in particular with zero live
lights — `evaluate` returns the floor atlas side length 32 together with an
empty shadow-descriptor list, rather than failing. -/
theorem evaluate_no_packing_degrades (m : DirectionalLightManager)
    (alloc : List (RawDirectionalLightHandle × Nat) → Nat → Option ShadowAtlas)
    (maxDim : Nat) (fit : InternalDirectionalLight → CameraState → CameraState)
    (cam : CameraState)
    (h : alloc (collectShadowMaps m.data) maxDim = none) :
    ∃ r, m.evaluate alloc maxDim fit cam = some r ∧
      r.size = UVec2.mk 32 32 ∧ r.descs = [] := by
  simp only [DirectionalLightManager.evaluate, h]
  exact ⟨_, rfl, rfl, rfl⟩

/-- C5 (witness): a fresh manager with zero live lights and an allocator that
returns nothing: `evaluate` returns side length 32 and no descriptors. -/
theorem evaluate_no_packing_degrades_witness :
    ∃ r, DirectionalLightManager.new.evaluate (fun _ _ => none) 2048 (fun _ c => c)
        (CameraState.mk Mat4.mk) = some r ∧
      r.size = UVec2.mk 32 32 ∧ r.descs = [] :=
  evaluate_no_packing_degrades DirectionalLightManager.new (fun _ _ => none) 2048
    (fun _ c => c) (CameraState.mk Mat4.mk) rfl

/-! ## C7 -/

open DirectionalLightManager in
/-- C7: an `evaluate` call that returns never mutates light storage: every
slot holds the same value after the call as before, whatever the allocator
returned. -/
theorem evaluate_preserves_light_storage (m : DirectionalLightManager)
    (alloc : List (RawDirectionalLightHandle × Nat) → Nat → Option ShadowAtlas)
    (maxDim : Nat) (fit : InternalDirectionalLight → CameraState → CameraState)
    (cam : CameraState) (r : EvalResult)
    (h : m.evaluate alloc maxDim fit cam = some r) :
    r.mgr.data = m.data := by
  cases ha : alloc (collectShadowMaps m.data) maxDim with
  | none =>
      simp only [DirectionalLightManager.evaluate, ha] at h
      obtain rfl := (Option.some.inj h).symm
      exact textureStep_data m MINIMUM_SHADOW_MAP_SIZE
  | some a =>
      obtain ⟨sd, arr, hsd, harr, hr⟩ := evaluate_some_atlas ha h
      subst hr
      exact textureStep_data m (UVec2.max a.texture_dimensions MINIMUM_SHADOW_MAP_SIZE)

/-- C7 (witness): on a concrete call (fresh manager, allocator finds no
packing) the returned manager's storage equals the storage before. -/
theorem evaluate_preserves_light_storage_witness :
    (⟨DirectionalLightManager.new, UVec2.mk 32 32, [], none⟩ :
        DirectionalLightManager.EvalResult).mgr.data = DirectionalLightManager.new.data :=
  evaluate_preserves_light_storage DirectionalLightManager.new (fun _ _ => none) 2048
    (fun _ c => c) (CameraState.mk Mat4.mk)
    ⟨DirectionalLightManager.new, UVec2.mk 32 32, [], none⟩ rfl

/-! ## C4 -/

open DirectionalLightManager in
/-- C4: in every completed `evaluate` call the working atlas side length is
the componentwise `max(32, packing side length)` when the allocator returned
a packing and the floor 32 otherwise, and the shadow texture is recreated at
the new size (the view generation changes and the held size becomes the
working size) iff that side length differs from the currently held
texture's. -/
theorem evaluate_atlas_size_and_texture_recreate (m : DirectionalLightManager)
    (alloc : List (RawDirectionalLightHandle × Nat) → Nat → Option ShadowAtlas)
    (maxDim : Nat) (fit : InternalDirectionalLight → CameraState → CameraState)
    (cam : CameraState) (r : EvalResult)
    (h : m.evaluate alloc maxDim fit cam = some r) :
    (∀ a, alloc (collectShadowMaps m.data) maxDim = some a →
      r.size = UVec2.max a.texture_dimensions MINIMUM_SHADOW_MAP_SIZE) ∧
    (alloc (collectShadowMaps m.data) maxDim = none →
      r.size = MINIMUM_SHADOW_MAP_SIZE) ∧
    (r.mgr.texture_view ≠ m.texture_view ↔ r.size ≠ m.texture_size) ∧
    r.mgr.texture_size = r.size := by
  cases ha : alloc (collectShadowMaps m.data) maxDim with
  | none =>
      simp only [DirectionalLightManager.evaluate, ha] at h
      obtain rfl := (Option.some.inj h).symm
      refine ⟨fun a haa => Option.noConfusion haa, fun _ => rfl, ?_, ?_⟩
      · exact textureStep_view m MINIMUM_SHADOW_MAP_SIZE
      · exact textureStep_texture_size m MINIMUM_SHADOW_MAP_SIZE
  | some a =>
      obtain ⟨sd, arr, hsd, harr, hr⟩ := evaluate_some_atlas ha h
      subst hr
      refine ⟨fun a2 ha2 => ?_, fun hn => Option.noConfusion hn, ?_, ?_⟩
      · obtain rfl := Option.some.inj ha2
        rfl
      · exact textureStep_view m (UVec2.max a.texture_dimensions MINIMUM_SHADOW_MAP_SIZE)
      · exact textureStep_texture_size m (UVec2.max a.texture_dimensions MINIMUM_SHADOW_MAP_SIZE)

/-- C4 (witness): a concrete call in which the allocator returns no packing:
the working side length is the floor 32. -/
theorem evaluate_atlas_size_and_texture_recreate_witness :
    (⟨DirectionalLightManager.new, UVec2.mk 32 32, [], none⟩ :
        DirectionalLightManager.EvalResult).size = MINIMUM_SHADOW_MAP_SIZE :=
  (evaluate_atlas_size_and_texture_recreate DirectionalLightManager.new (fun _ _ => none)
    2048 (fun _ c => c) (CameraState.mk Mat4.mk)
    ⟨DirectionalLightManager.new, UVec2.mk 32 32, [], none⟩ rfl).2.1 rfl

/-! ## C6 -/

/-- A successful `mapM` over `Option` computes exactly the pointwise images. -/
theorem mapM_option_eq_some_forall₂ {α β : Type} (f : α → Option β) :
    ∀ (l : List α) (l2 : List β), l.mapM f = some l2 →
      List.Forall₂ (fun x y => f x = some y) l l2 := by
  intro l
  induction l with
  | nil =>
      intro l2 h
      simp only [List.mapM_nil, Option.pure_def, Option.some.injEq] at h
      subst h
      exact List.Forall₂.nil
  | cons x t ih =>
      intro l2 h
      rw [List.mapM_cons] at h
      simp only [bind, Option.bind_eq_some, Option.pure_def, Option.some.injEq] at h
      obtain ⟨y, hy, ys, hys, rfl⟩ := h
      exact List.Forall₂.cons hy (ih ys hys)

theorem forall₂_mem_right {α β : Type} {R : α → β → Prop} {l : List α} {l2 : List β}
    (h : List.Forall₂ R l l2) : ∀ b ∈ l2, ∃ a, a ∈ l ∧ R a b := by
  induction h with
  | nil => intro b hb; exact absurd hb (List.not_mem_nil b)
  | @cons x y t t2 hxy ht ih =>
      intro b hb
      rcases List.mem_cons.mp hb with hb | hb
      · exact ⟨x, List.mem_cons_self x t, by rwa [hb]⟩
      · obtain ⟨a, haa, hr⟩ := ih b hb
        exact ⟨a, List.mem_cons_of_mem x haa, hr⟩

theorem forall₂_imp_mem {α β : Type} {R P : α → β → Prop} :
    ∀ {l : List α} {l2 : List β}, List.Forall₂ R l l2 →
      (∀ a ∈ l, ∀ b, R a b → P a b) → List.Forall₂ P l l2 := by
  intro l l2 h
  induction h with
  | nil => exact fun _ => List.Forall₂.nil
  | @cons x y t t2 hxy ht ih =>
      intro himp
      exact List.Forall₂.cons (himp x (List.mem_cons_self x t) y hxy)
        (ih fun p hp b hr => himp p (List.mem_cons_of_mem x hp) b hr)

open DirectionalLightManager in
/-- C6: in every `evaluate` call that returns descriptors, the uploaded GPU
buffer holds exactly one `ShaderDirectionalLight` per returned descriptor, in
placement order, with color = light color * intensity, direction from the
light, inv_resolution = 1 / atlas side length, and atlas_offset / atlas_size
equal to the placement's offset and size divided by the atlas side length,
each lying within [0, 1] (given that the allocator kept every placement
inside the atlas, its contract). -/
theorem evaluate_buffer_matches_descs (m : DirectionalLightManager)
    (alloc : List (RawDirectionalLightHandle × Nat) → Nat → Option ShadowAtlas)
    (maxDim : Nat) (fit : InternalDirectionalLight → CameraState → CameraState)
    (cam : CameraState) (a : ShadowAtlas) (r : EvalResult)
    (buf : ShaderDirectionalLightBuffer)
    (ha : alloc (collectShadowMaps m.data) maxDim = some a)
    (hwf : ∀ map ∈ a.maps, map.offset.x + map.size ≤ a.texture_dimensions.x ∧
      map.offset.y + map.size ≤ a.texture_dimensions.y)
    (h : m.evaluate alloc maxDim fit cam = some r)
    (hb : r.buffer = some buf) :
    buf.count = buf.array.length ∧
    buf.array.length = r.descs.length ∧
    List.Forall₂ (fun desc entry => ∃ il,
        lookupLight m.data desc.map.handle.idx = some il ∧
        entry.view_proj = desc.camera.view_proj ∧
        entry.color = il.inner.color * il.inner.intensity ∧
        entry.direction = il.inner.direction ∧
        entry.inv_resolution = Vec2.mk (1 / (r.size.x : Rat)) (1 / (r.size.y : Rat)) ∧
        entry.atlas_offset = Vec2.mk ((desc.map.offset.x : Rat) / (r.size.x : Rat))
          ((desc.map.offset.y : Rat) / (r.size.y : Rat)) ∧
        entry.atlas_size = Vec2.mk ((desc.map.size : Rat) / (r.size.x : Rat))
          ((desc.map.size : Rat) / (r.size.y : Rat)) ∧
        0 ≤ entry.atlas_offset.x ∧ entry.atlas_offset.x ≤ 1 ∧
        0 ≤ entry.atlas_offset.y ∧ entry.atlas_offset.y ≤ 1 ∧
        0 ≤ entry.atlas_size.x ∧ entry.atlas_size.x ≤ 1 ∧
        0 ≤ entry.atlas_size.y ∧ entry.atlas_size.y ≤ 1)
      r.descs buf.array := by
  obtain ⟨sd, arr, hsd, harr, hr⟩ := evaluate_some_atlas ha h
  subst hr
  obtain rfl := Option.some.inj hb
  refine ⟨rfl, ?_, ?_⟩
  · exact ((mapM_option_eq_some_forall₂ _ sd arr harr).length_eq).symm
  · have F1 := mapM_option_eq_some_forall₂ _ a.maps sd hsd
    have F2 := mapM_option_eq_some_forall₂ _ sd arr harr
    have hmem : ∀ desc ∈ sd, desc.map ∈ a.maps := by
      intro desc hdesc
      obtain ⟨map, hmap, hf⟩ := forall₂_mem_right F1 desc hdesc
      simp only [bind, Option.bind_eq_some, Option.pure_def, Option.some.injEq] at hf
      obtain ⟨l, hl, hdesc2⟩ := hf
      rw [← hdesc2]
      exact hmap
    have hsx : 32 ≤ (UVec2.max a.texture_dimensions MINIMUM_SHADOW_MAP_SIZE).x :=
      Nat.le_max_right _ _
    have hsy : 32 ≤ (UVec2.max a.texture_dimensions MINIMUM_SHADOW_MAP_SIZE).y :=
      Nat.le_max_right _ _
    have hdx : a.texture_dimensions.x ≤
        (UVec2.max a.texture_dimensions MINIMUM_SHADOW_MAP_SIZE).x :=
      Nat.le_max_left _ _
    have hdy : a.texture_dimensions.y ≤
        (UVec2.max a.texture_dimensions MINIMUM_SHADOW_MAP_SIZE).y :=
      Nat.le_max_left _ _
    refine forall₂_imp_mem F2 ?_
    intro desc hdesc entry hg
    simp only [bind, Option.bind_eq_some, Option.pure_def, Option.some.injEq] at hg
    obtain ⟨il, hil, rfl⟩ := hg
    obtain ⟨hwx, hwy⟩ := hwf desc.map (hmem desc hdesc)
    refine ⟨il, hil, rfl, rfl, rfl, rfl, rfl, rfl, ?_, ?_, ?_, ?_, ?_, ?_, ?_, ?_⟩
    · exact div_nonneg (Nat.cast_nonneg _) (Nat.cast_nonneg _)
    · exact div_le_one_of_le₀ (Nat.cast_le.mpr (by omega)) (Nat.cast_nonneg _)
    · exact div_nonneg (Nat.cast_nonneg _) (Nat.cast_nonneg _)
    · exact div_le_one_of_le₀ (Nat.cast_le.mpr (by omega)) (Nat.cast_nonneg _)
    · exact div_nonneg (Nat.cast_nonneg _) (Nat.cast_nonneg _)
    · exact div_le_one_of_le₀ (Nat.cast_le.mpr (by omega)) (Nat.cast_nonneg _)
    · exact div_nonneg (Nat.cast_nonneg _) (Nat.cast_nonneg _)
    · exact div_le_one_of_le₀ (Nat.cast_le.mpr (by omega)) (Nat.cast_nonneg _)

open DirectionalLightManager in
/-- C6 (witness): one live light of resolution 64 packed by a concrete
allocator result at offset (0,0) in a 64x64 atlas: the buffer holds exactly
one record for the one descriptor. -/
theorem evaluate_buffer_matches_descs_witness :
    1 = [ShaderDirectionalLight.mk Mat4.mk (Vec3.mk 1 0 0 * (2 : Rat))
        (Vec3.mk 0 0 (-1)) ((1 : Rat) / (UVec2.mk 64 64).as_vec2)
        ((UVec2.mk 0 0).as_vec2 / (UVec2.mk 64 64).as_vec2)
        (((64 : Nat) : Rat) / (UVec2.mk 64 64).as_vec2)].length :=
  (evaluate_buffer_matches_descs
    ⟨[some ⟨⟨⟨1, 0, 0⟩, 2, ⟨0, 0, -1⟩, 64⟩⟩], ⟨64, 64⟩, 0⟩
    (fun _ _ => some ⟨⟨64, 64⟩, [⟨⟨0⟩, ⟨0, 0⟩, 64⟩]⟩) 2048 (fun _ c => c)
    (CameraState.mk Mat4.mk)
    ⟨⟨64, 64⟩, [⟨⟨0⟩, ⟨0, 0⟩, 64⟩]⟩
    ⟨⟨[some ⟨⟨⟨1, 0, 0⟩, 2, ⟨0, 0, -1⟩, 64⟩⟩], ⟨64, 64⟩, 0⟩, ⟨64, 64⟩,
      [⟨⟨⟨0⟩, ⟨0, 0⟩, 64⟩, CameraState.mk Mat4.mk⟩],
      some ⟨1, [ShaderDirectionalLight.mk Mat4.mk (Vec3.mk 1 0 0 * (2 : Rat))
        (Vec3.mk 0 0 (-1)) ((1 : Rat) / (UVec2.mk 64 64).as_vec2)
        ((UVec2.mk 0 0).as_vec2 / (UVec2.mk 64 64).as_vec2)
        (((64 : Nat) : Rat) / (UVec2.mk 64 64).as_vec2)]⟩⟩
    ⟨1, [ShaderDirectionalLight.mk Mat4.mk (Vec3.mk 1 0 0 * (2 : Rat))
      (Vec3.mk 0 0 (-1)) ((1 : Rat) / (UVec2.mk 64 64).as_vec2)
      ((UVec2.mk 0 0).as_vec2 / (UVec2.mk 64 64).as_vec2)
      (((64 : Nat) : Rat) / (UVec2.mk 64 64).as_vec2)]⟩
    rfl (by decide) rfl rfl).1

end Rend3
